import Mathlib

/-
  Verification of the sector-addressed buffered stream core of the
  audiocd package (audiocd.go, bindings.go).

  The Go code is shallowly embedded: the AudioCD struct becomes a record,
  pointer mutation becomes explicit state passing, and each operation also
  returns the list of device-adapter calls it performed (the cgo calls in
  bindings.go), so that properties about device traffic can be stated.

  Machine integers: the Go fields are int64; no claim exercises offsets
  anywhere near 2^63, so they are embedded as unbounded Int, with the Go
  truncated division/remainder (Int.tdiv / Int.tmod) and the uint32
  conversion in readAudioSectors made explicit (mod 2^32).
-/

namespace AudioCDSpec

set_option maxRecDepth 20000
set_option maxHeartbeats 1600000

/-- SampleRate is the number of samples per second (44.1KHz), audiocd.go. -/
def SampleRate : Nat := 44100

/-- Samples are signed 16-bit, audiocd.go. -/
def BitsPerSample : Nat := 16

/-- BytesPerSample, audiocd.go. -/
def BytesPerSample : Nat := BitsPerSample / 8

/-- Channels: all Redbook audio CDs are stereo, audiocd.go. -/
def Channels : Nat := 2

/-- SectorsPerSecond: 75 audio frames per second, audiocd.go. -/
def SectorsPerSecond : Nat := 75

/-- SamplesPerSector, audiocd.go. -/
def SamplesPerSector : Nat := SampleRate / SectorsPerSecond

/-- BytesPerSector = 44100 * 2 * 2 / 75 = 2352, audiocd.go. -/
def BytesPerSector : Nat := SampleRate * Channels * BytesPerSample / SectorsPerSecond

/-- The Go error values that the embedded code can return.
`errClosed` models `os.ErrClosed` = `fs.ErrClosed` = `ErrNotOpen` (they are
the same Go value). `driverError c` models `AudioCDError(c)`.
`errNotWholeSectors` is the readSectors "must read complete sectors" error,
`errInvalidBufferSize` the readAudioSectors "invalid buffer size" error.
`errPanic` marks a Go runtime panic (index out of range in LengthSectors on
an empty TOC). `errOutOfFuel` is a sentinel of the embedding only: it marks
exhaustion of the fuel bound used to embed the recursion of Read and is
unreachable for the fuel Read supplies. -/
inductive GoError where
  | errClosed
  | errNoDrive
  | driverError (code : Int)
  | errNotWholeSectors
  | errInvalidBufferSize
  | errPanic
  | errOutOfFuel
  deriving DecidableEq

/-- One call into the device adapter (a cgo call in bindings.go).
`readAudio lsn nsectors` is `cdio_read_audio_sectors`; the byte count it
requests is `nsectors * BytesPerSector`. The TOC loop of bindings.go is
collapsed into the single marker `readToc` (no claim depends on its
internals). -/
inductive DevCall where
  | readAudio (lsn : Nat) (nsectors : Nat)
  | setSpeed (x : Int)
  | eject
  | readToc
  | getNumTracks
  | hwInfo
  | openDrive
  | destroy
  deriving DecidableEq

/-- TrackPosition, audiocd.go. -/
structure TrackPosition where
  NumChannels : Int
  IsAudio : Bool
  IsCopyPermitted : Bool
  IsPreemphasisEnabled : Bool
  TrackNum : Int
  StartSector : Int
  LengthSectors : Int
  deriving DecidableEq

/-- ContainsSector, audiocd.go: `sector >= t.StartSector && sector < t.StartSector+t.LengthSectors`. -/
def TrackPosition.ContainsSector (t : TrackPosition) (sector : Int) : Bool :=
  decide (t.StartSector ≤ sector) && decide (sector < t.StartSector + t.LengthSectors)

/-- The external device adapter (libcdio), an opaque synchronous service.
`disc i` is the byte the disc holds at absolute byte position `i` (sector s
occupies positions [s*BytesPerSector, (s+1)*BytesPerSector)).
`readRes lsn n` is the return code of `cdio_read_audio_sectors` (0 = ok).
`speedRes x` is the return code of `cdio_set_speed`, `ejectRes` of
`cdio_eject_media`. `tocRes` is the (device-determined) outcome of the
bindings.go toc loop, `numTracks` of `cdio_get_num_tracks`, `modelStr`
the joined hwinfo string of bindings.go model(). -/
structure Device where
  disc : Nat → Nat
  readRes : Nat → Nat → Int
  speedRes : Int → Int
  ejectRes : Int
  openOk : Bool
  tocRes : Except GoError (List TrackPosition)
  numTracks : Int
  modelStr : String

/-- The AudioCD struct, audiocd.go. `buf` holds the unread bytes of the
bytes.Buffer; `sbuf` is the scratch slice, modelled by its length (none =
nil slice; its contents only live inside one bufferSectors call);
`cdio` is true iff the CdIo_t pointer is non-nil. -/
structure AudioCD where
  buf : List Nat
  sbuf : Option Nat
  bufferedOffset : Int
  trueOffset : Int
  cdio : Bool
  deriving DecidableEq

/-- IsOpen, audiocd.go: true iff cd.cdio != nil. -/
def AudioCD.IsOpen (cd : AudioCD) : Bool := cd.cdio

/-- The Go uint32(x) conversion of an int64: the low 32 bits. -/
def uint32ofInt (x : Int) : Nat := (x % 4294967296).toNat

/-- The `len` bytes the disc holds starting at absolute byte position `start`. -/
def discBytes (dev : Device) (start len : Nat) : List Nat :=
  (List.range len).map (fun i => dev.disc (start + i))

/-- Result of a Seek: new state, returned offset, error, device calls. -/
structure SeekResult where
  st : AudioCD
  ret : Int
  err : Option GoError
  trace : List DevCall
  deriving DecidableEq

/-- Result of a Read: new state, bytes copied to the caller (Go returns
their count `n`), error, device calls. -/
structure ReadResult where
  st : AudioCD
  out : List Nat
  err : Option GoError
  trace : List DevCall
  deriving DecidableEq

/-- Result of readSectors: returned count, bytes placed in p (none when the
device call failed or was never made), error, device calls. readSectors
does not mutate the stream state. -/
structure SectorsResult where
  n : Int
  data : Option (List Nat)
  err : Option GoError
  trace : List DevCall
  deriving DecidableEq

/-- Result of a state-mutating call returning only an error
(bufferSectors, Open, Close, EjectMedia). -/
structure BufResult where
  st : AudioCD
  err : Option GoError
  trace : List DevCall
  deriving DecidableEq

/-- readAudioSectors, bindings.go: rejects a buffer whose size is not
nsectors*BytesPerSector, then issues cdio_read_audio_sectors at
lsn = uint32(cd.trueOffset / BytesPerSector) (truncated int64 division).
On success p is filled with the disc bytes of those sectors. -/
def readAudioSectors (dev : Device) (cd : AudioCD) (plen nsectors : Nat) :
    Option (List Nat) × Option GoError × List DevCall :=
  if plen ≠ nsectors * BytesPerSector then
    (none, some GoError.errInvalidBufferSize, [])
  else
    let start := uint32ofInt (Int.tdiv cd.trueOffset (BytesPerSector : Int))
    if dev.readRes start nsectors = 0 then
      (some (discBytes dev (start * BytesPerSector) (nsectors * BytesPerSector)), none,
        [DevCall.readAudio start nsectors])
    else
      (none, some (GoError.driverError (dev.readRes start nsectors)),
        [DevCall.readAudio start nsectors])

/-- readSectors, audiocd.go: not-open check, empty-buffer shortcut,
whole-sector alignment check, then readAudioSectors; returns int64(len(p))
on success and 0 on failure. -/
def AudioCD.readSectors (dev : Device) (cd : AudioCD) (plen : Nat) : SectorsResult :=
  if cd.IsOpen = false then ⟨0, none, some GoError.errClosed, []⟩
  else if plen = 0 then ⟨0, none, none, []⟩
  else if plen % BytesPerSector ≠ 0 then ⟨0, none, some GoError.errNotWholeSectors, []⟩
  else
    let nsectors := plen / BytesPerSector
    match readAudioSectors dev cd plen nsectors with
    | (data, none, tr) => ⟨(plen : Int), data, none, tr⟩
    | (_, some e, tr) => ⟨0, none, some e, tr⟩

/-- bufferSectors, audiocd.go: allocate the scratch slice if nil, reallocate
if smaller than nsectors*BytesPerSector (never shrunk), then
`readSectors(cd.sbuf)` — note the Go code passes the WHOLE scratch slice,
not its first nsectors*BytesPerSector bytes — advance bufferedOffset by the
returned count and append `sbuf[:n]` to the pending buffer. -/
def AudioCD.bufferSectors (dev : Device) (cd : AudioCD) (nsectors : Nat) : BufResult :=
  let slen : Nat :=
    match cd.sbuf with
    | none => nsectors * BytesPerSector
    | some l => if l < nsectors * BytesPerSector then nsectors * BytesPerSector else l
  let cd1 : AudioCD := { cd with sbuf := some slen }
  let r := AudioCD.readSectors dev cd1 slen
  let appended : List Nat :=
    match r.data with
    | some d => d.take r.n.toNat
    | none => []
  ⟨{ cd1 with bufferedOffset := cd1.bufferedOffset + r.n, buf := cd1.buf ++ appended },
    r.err, r.trace⟩

/-- TrackCount, audiocd.go: -1 when not open, else cdio_get_num_tracks. -/
def AudioCD.TrackCount (dev : Device) (cd : AudioCD) : Int × List DevCall :=
  if cd.IsOpen = false then (-1, []) else (dev.numTracks, [DevCall.getNumTracks])

/-- toc, bindings.go. The per-track cgo loop (first-track check, per-track
lsn/length checks) is collapsed to the device-determined outcome `tocRes`;
no claim depends on its internals, only on the fact that it is a device
round-trip. -/
def toc (dev : Device) (_ntracks : Int) : Except GoError (List TrackPosition) × List DevCall :=
  (dev.tocRes, [DevCall.readToc])

/-- TOC, audiocd.go: ErrNotOpen when closed, else toc(cdio, TrackCount()). -/
def AudioCD.TOC (dev : Device) (cd : AudioCD) : Except GoError (List TrackPosition) × List DevCall :=
  if cd.IsOpen = false then (Except.error GoError.errClosed, [])
  else
    let tc := AudioCD.TrackCount dev cd
    let r := toc dev tc.1
    (r.1, tc.2 ++ r.2)

/-- LengthSectors, audiocd.go: StartSector of the last track + LengthSectors.
`toc[len(toc)-1]` on an empty TOC is a Go index-out-of-range panic,
marked here by errPanic. -/
def AudioCD.LengthSectors (dev : Device) (cd : AudioCD) : Except GoError Int × List DevCall :=
  if cd.IsOpen = false then (Except.error GoError.errClosed, [])
  else
    match AudioCD.TOC dev cd with
    | (Except.error e, tr) => (Except.error e, tr)
    | (Except.ok l, tr) =>
      match l.getLast? with
      | none => (Except.error GoError.errPanic, tr)
      | some last => (Except.ok (last.StartSector + last.LengthSectors), tr)

/-- Model, audiocd.go: empty string when not open, else the hwinfo string. -/
def AudioCD.Model (dev : Device) (cd : AudioCD) : String × List DevCall :=
  if cd.IsOpen = false then ("", []) else (dev.modelStr, [DevCall.hwInfo])

/-- SetSpeed, audiocd.go: os.ErrClosed when not open; -1 is mapped to
0xffff; nonzero cdio_set_speed return codes become AudioCDError. -/
def AudioCD.SetSpeed (dev : Device) (cd : AudioCD) (x : Int) : Option GoError × List DevCall :=
  if cd.IsOpen = false then (some GoError.errClosed, [])
  else
    let y : Int := if x = -1 then 65535 else x
    if dev.speedRes y = 0 then (none, [DevCall.setSpeed y])
    else (some (GoError.driverError (dev.speedRes y)), [DevCall.setSpeed y])

/-- The body of Seek after the whence switch has resolved the absolute
target `newoffset` (audiocd.go lines 225-251); `tr0` carries the device
calls the SeekEnd branch already made. `buf.Next(n)` drops n bytes from
the front of the buffer (for the nonnegative n arising here).
Note the slow path: the buffer is wiped, trueOffset is set to the OLD
bufferedOffset, and bufferSectors(1) is called — which reads at
lsn = trueOffset/BytesPerSector, i.e. at the stale bufferedOffset, not at
secoffset. The embedding reproduces the source faithfully. -/
def seekResolved (dev : Device) (cd : AudioCD) (newoffset : Int) (tr0 : List DevCall) :
    SeekResult :=
  if newoffset = cd.trueOffset then ⟨cd, cd.trueOffset, none, tr0⟩
  else if cd.trueOffset < newoffset ∧ newoffset < cd.bufferedOffset then
    ⟨{ cd with buf := cd.buf.drop (newoffset - cd.trueOffset).toNat, trueOffset := newoffset },
      newoffset, none, tr0⟩
  else
    let cd1 : AudioCD := { cd with buf := [], trueOffset := cd.bufferedOffset }
    let secoffset := newoffset - Int.tmod newoffset (BytesPerSector : Int)
    let r := AudioCD.bufferSectors dev cd1 1
    let cd2 : AudioCD := { r.st with trueOffset := r.st.bufferedOffset }
    match r.err with
    | some e => ⟨cd2, cd2.trueOffset, some e, tr0 ++ r.trace⟩
    | none =>
      ⟨{ cd2 with buf := cd2.buf.drop (newoffset - secoffset).toNat, trueOffset := newoffset },
        newoffset, none, tr0 ++ r.trace⟩

/-- Seek, audiocd.go: not-open check, whence resolution
(1 = io.SeekCurrent, 2 = io.SeekEnd, anything else falls to the default
case = absolute), then the fast/slow path logic of seekResolved. -/
def AudioCD.Seek (dev : Device) (cd : AudioCD) (offset : Int) (whence : Int) : SeekResult :=
  if cd.IsOpen = false then ⟨cd, cd.trueOffset, some GoError.errClosed, []⟩
  else if whence = 1 then seekResolved dev cd (cd.trueOffset + offset) []
  else if whence = 2 then
    match AudioCD.LengthSectors dev cd with
    | (Except.error e, tr) => ⟨cd, 0, some e, tr⟩
    | (Except.ok l, tr) => seekResolved dev cd (l * (BytesPerSector : Int) + offset) tr
  else seekResolved dev cd offset []

/-- SeekToSector, audiocd.go: Seek(sector*BytesPerSector, io.SeekStart). -/
def AudioCD.SeekToSector (dev : Device) (cd : AudioCD) (sector : Int) : SeekResult :=
  AudioCD.Seek dev cd (sector * (BytesPerSector : Int)) 0

/-- The recursion of Read, audiocd.go, made structural on a fuel counter:
serve min(len(p), buf.Len()) bytes from the buffer and recurse on the rest;
on an empty buffer, bufferSectors(len(p)/BytesPerSector + 1) and recurse.
Each refill is followed by a serve of at least one byte, so the Go call
depth is at most 2*len(p)+1; Read supplies fuel 2*len(p)+2, making the
fuel-exhausted sentinel unreachable. -/
def readGo (dev : Device) : Nat → AudioCD → Nat → ReadResult
  | 0, cd, _ => ⟨cd, [], some GoError.errOutOfFuel, []⟩
  | fuel + 1, cd, plen =>
    if plen = 0 then ⟨cd, [], none, []⟩
    else if 0 < cd.buf.length then
      let n := min plen cd.buf.length
      let served := cd.buf.take n
      let cd1 : AudioCD :=
        { cd with buf := cd.buf.drop n, trueOffset := cd.trueOffset + (n : Int) }
      let r := readGo dev fuel cd1 (plen - n)
      ⟨r.st, served ++ r.out, r.err, r.trace⟩
    else
      let nsectors := plen / BytesPerSector + 1
      let b := AudioCD.bufferSectors dev cd nsectors
      match b.err with
      | some e => ⟨b.st, [], some e, b.trace⟩
      | none =>
        let r := readGo dev fuel b.st plen
        ⟨r.st, r.out, r.err, b.trace ++ r.trace⟩

/-- Read, audiocd.go. The Go return count n equals `(Read …).out.length`. -/
def AudioCD.Read (dev : Device) (cd : AudioCD) (plen : Nat) : ReadResult :=
  readGo dev (2 * plen + 2) cd plen

/-- openDrive, bindings.go: cdio_open; sets cd.cdio on success,
ErrNoDrive when the returned pointer is nil. -/
def openDrive (dev : Device) (cd : AudioCD) : AudioCD × Option GoError × List DevCall :=
  if dev.openOk then ({ cd with cdio := true }, none, [DevCall.openDrive])
  else (cd, some GoError.errNoDrive, [DevCall.openDrive])

/-- Open, audiocd.go: no-op when already open; openDrive, SetSpeed(-1),
then reset buffer and offsets. A SetSpeed failure returns early, before
the resets, leaving the just-acquired session held. (buf.Grow only
reserves capacity and is not modelled.) -/
def AudioCD.Open (dev : Device) (cd : AudioCD) : BufResult :=
  if cd.IsOpen then ⟨cd, none, []⟩
  else
    match openDrive dev cd with
    | (_, some e, tr) => ⟨cd, some e, tr⟩
    | (cd1, none, tr) =>
      let s := AudioCD.SetSpeed dev cd1 (-1)
      match s.1 with
      | some e => ⟨cd1, some e, tr ++ s.2⟩
      | none => ⟨{ cd1 with buf := [], bufferedOffset := 0, trueOffset := 0 }, none, tr ++ s.2⟩

/-- Close, audiocd.go: cdio_destroy if open, clear the handle, truncate the
buffer. The offsets are NOT touched. Always returns nil. -/
def AudioCD.Close (cd : AudioCD) : BufResult :=
  ⟨{ cd with cdio := false, buf := [] }, none, if cd.IsOpen then [DevCall.destroy] else []⟩

/-- ejectMedia, bindings.go: cdio_eject_media; on success (code 0) clears
cd.cdio; on failure returns AudioCDError(code) with the handle untouched. -/
def ejectMedia (dev : Device) (cd : AudioCD) : AudioCD × Option GoError × List DevCall :=
  if dev.ejectRes = 0 then ({ cd with cdio := false }, none, [DevCall.eject])
  else (cd, some (GoError.driverError dev.ejectRes), [DevCall.eject])

/-- EjectMedia, audiocd.go: ejectMedia, then — only when it succeeded —
Close. An eject failure returns early WITHOUT closing. -/
def AudioCD.EjectMedia (dev : Device) (cd : AudioCD) : BufResult :=
  match ejectMedia dev cd with
  | (_, some e, tr) => ⟨cd, some e, tr⟩
  | (cd1, none, tr) =>
    let c := AudioCD.Close cd1
    ⟨c.st, c.err, tr ++ c.trace⟩

/-- The lsn that readAudioSectors will pass to the device from state cd:
uint32(cd.trueOffset / BytesPerSector). -/
def startLSN (cd : AudioCD) : Nat :=
  uint32ofInt (Int.tdiv cd.trueOffset (BytesPerSector : Int))

/-- The scratch length bufferSectors(nsectors) ends up passing to
readSectors: nsectors*BytesPerSector, or the existing (never shrunk)
scratch length if that is already larger. -/
def grownLen (cd : AudioCD) (nsectors : Nat) : Nat :=
  max (nsectors * BytesPerSector) (cd.sbuf.getD 0)

/-- Total sector count requested from the device across a call trace. -/
def readAudioSectorCount : List DevCall → Nat
  | [] => 0
  | DevCall.readAudio _ ns :: tl => ns + readAudioSectorCount tl
  | _ :: tl => readAudioSectorCount tl

/-- Minimum number of whole sectors covering `len` bytes (the wording of the spec
for the sector count a Read must issue). -/
def minSectorsCovering (len : Nat) : Nat := (len + BytesPerSector - 1) / BytesPerSector

/-- Every cdio_read_audio_sectors call in the trace requests a positive
sector count (hence a byte count that is a positive multiple of
BytesPerSector). -/
def readCallsAligned : List DevCall → Bool
  | [] => true
  | DevCall.readAudio _ ns :: tl => decide (1 ≤ ns) && readCallsAligned tl
  | _ :: tl => readCallsAligned tl

/-- A two-track test disc/device on which every device call succeeds. -/
def track1 : TrackPosition := ⟨2, true, false, false, 1, 0, 100⟩

/-- Second test track: sectors [100, 250). -/
def track2 : TrackPosition := ⟨2, true, false, false, 2, 100, 150⟩

/-- A device whose every call succeeds; the disc byte at position i is
i % 251, making bytes of distinct sectors distinguishable. -/
def okDevice : Device :=
  ⟨fun i => i % 251, fun _ _ => 0, fun _ => 0, 0, true,
    Except.ok [track1, track2], 2, "TESTDRIVE"⟩

/-- The state right after a successful Open: empty buffer, nil scratch,
zero offsets, session held. -/
def freshOpen : AudioCD := ⟨[], none, 0, 0, true⟩

/-- The zero value of the AudioCD struct (never opened). -/
def zeroCD : AudioCD := ⟨[], none, 0, 0, false⟩

/-- An open state whose scratch slice is left over from an earlier
two-sector bufferSectors call. -/
def staleScratch : AudioCD := ⟨[], some (2 * BytesPerSector), 0, 0, true⟩

/-- A device whose eject always fails with driver code -4. -/
def badEjectDevice : Device := { okDevice with ejectRes := -4 }

/-- An open state holding three unread buffered bytes. -/
def bufState : AudioCD := ⟨[5, 6, 7], some BytesPerSector, 3, 0, true⟩

/-- An open state whose cursor sits one sector in, buffer drained. -/
def usedState : AudioCD := ⟨[], some BytesPerSector, 2352, 2352, true⟩

/-- A device that opens fine but whose cdio_set_speed always fails
with driver code -5. -/
def noSpeedDevice : Device := { okDevice with speedRes := fun _ => -5 }

/- ------------------------------------------------------------------ -/
/- Helper lemmas shared by the claim theorems.                         -/
/- ------------------------------------------------------------------ -/

theorem discBytes_length (dev : Device) (start len : Nat) :
    (discBytes dev start len).length = len := by
  simp [discBytes]

/-- Closed form of a successful readSectors call: one device read of
plen/BytesPerSector sectors at startLSN cd, returning int64(plen) and the
disc bytes of those sectors. -/
theorem readSectors_ok (dev : Device) (cd : AudioCD) (plen : Nat)
    (hopen : cd.IsOpen = true) (h0 : plen ≠ 0) (hdvd : BytesPerSector ∣ plen)
    (hread : dev.readRes (startLSN cd) (plen / BytesPerSector) = 0) :
    AudioCD.readSectors dev cd plen =
      ⟨(plen : Int), some (discBytes dev (startLSN cd * BytesPerSector) plen), none,
        [DevCall.readAudio (startLSN cd) (plen / BytesPerSector)]⟩ := by
  have hmod : plen % BytesPerSector = 0 := by
    obtain ⟨k, rfl⟩ := hdvd
    exact Nat.mul_mod_right _ _
  have hcancel : plen / BytesPerSector * BytesPerSector = plen :=
    Nat.div_mul_cancel hdvd
  have hread2 := hread
  simp only [startLSN] at hread2
  simp only [AudioCD.readSectors, hopen, Bool.true_eq_false, if_false, h0, if_neg,
    hmod, ne_eq, not_true_eq_false, not_false_eq_true]
  simp [readAudioSectors, hcancel, startLSN, hread2]

/-- Closed form of a successful bufferSectors call: the scratch grows to
grownLen cd nsectors (never shrinking), ONE device read of that whole
scratch is issued, bufferedOffset advances by its byte count, and the disc
bytes are appended to the pending buffer. -/
theorem bufferSectors_ok (dev : Device) (cd : AudioCD) (nsectors : Nat)
    (hopen : cd.IsOpen = true) (hn : 1 ≤ nsectors)
    (hdvd : BytesPerSector ∣ cd.sbuf.getD 0)
    (hread : dev.readRes (startLSN cd) (grownLen cd nsectors / BytesPerSector) = 0) :
    AudioCD.bufferSectors dev cd nsectors =
      ⟨{ cd with sbuf := some (grownLen cd nsectors),
                 bufferedOffset := cd.bufferedOffset + ((grownLen cd nsectors : Nat) : Int),
                 buf := cd.buf ++
                   discBytes dev (startLSN cd * BytesPerSector) (grownLen cd nsectors) },
        none,
        [DevCall.readAudio (startLSN cd) (grownLen cd nsectors / BytesPerSector)]⟩ := by
  have hslen :
      (match cd.sbuf with
        | none => nsectors * BytesPerSector
        | some l => if l < nsectors * BytesPerSector then nsectors * BytesPerSector else l) =
      grownLen cd nsectors := by
    cases hsb : cd.sbuf with
    | none => simp [grownLen, hsb]
    | some l =>
      simp only [grownLen, hsb, Option.getD]
      split <;> omega
  have hM0 : grownLen cd nsectors ≠ 0 := by
    have hle : BytesPerSector ≤ nsectors * BytesPerSector := by
      calc BytesPerSector = 1 * BytesPerSector := (Nat.one_mul _).symm
        _ ≤ nsectors * BytesPerSector := Nat.mul_le_mul_right _ hn
    have h2 : nsectors * BytesPerSector ≤ grownLen cd nsectors := Nat.le_max_left _ _
    have hBpos : 0 < BytesPerSector := by decide
    omega
  have hMdvd : BytesPerSector ∣ grownLen cd nsectors := by
    rcases Nat.le_total (nsectors * BytesPerSector) (cd.sbuf.getD 0) with h | h
    · rw [grownLen, Nat.max_eq_right h]; exact hdvd
    · rw [grownLen, Nat.max_eq_left h]; exact Dvd.intro_left nsectors rfl
  have hcd1open : AudioCD.IsOpen { cd with sbuf := some (grownLen cd nsectors) } = true := hopen
  have hstart : startLSN { cd with sbuf := some (grownLen cd nsectors) } = startLSN cd := rfl
  have hrs := readSectors_ok dev { cd with sbuf := some (grownLen cd nsectors) }
    (grownLen cd nsectors) hcd1open hM0 hMdvd (by rw [hstart]; exact hread)
  rw [hstart] at hrs
  simp only [AudioCD.bufferSectors, hslen, hrs]
  have hlen : (discBytes dev (startLSN cd * BytesPerSector) (grownLen cd nsectors)).length =
      grownLen cd nsectors := discBytes_length ..
  simp [Int.toNat_ofNat, List.take_of_length_le, hlen]

/-- A zero-length Read returns immediately (given any fuel at all). -/
theorem readGo_zero (dev : Device) (fuel : Nat) (cd : AudioCD) (hf : 1 ≤ fuel) :
    readGo dev fuel cd 0 = ⟨cd, [], none, []⟩ := by
  cases fuel with
  | zero => omega
  | succ f => simp [readGo]

/-- The serve step of Read: with a nonempty buffer, min(len(p), buf.Len())
bytes are taken from the buffer front, the cursor advances, and Read
recurses on the remainder. -/
theorem readGo_serve (dev : Device) (fuel : Nat) (cd : AudioCD) (plen : Nat)
    (hf : 1 ≤ fuel) (hp : plen ≠ 0) (hb : 0 < cd.buf.length) :
    readGo dev fuel cd plen =
      ⟨(readGo dev (fuel - 1)
          { cd with buf := cd.buf.drop (min plen cd.buf.length),
                    trueOffset := cd.trueOffset + ((min plen cd.buf.length : Nat) : Int) }
          (plen - min plen cd.buf.length)).st,
        cd.buf.take (min plen cd.buf.length) ++
          (readGo dev (fuel - 1)
            { cd with buf := cd.buf.drop (min plen cd.buf.length),
                      trueOffset := cd.trueOffset + ((min plen cd.buf.length : Nat) : Int) }
            (plen - min plen cd.buf.length)).out,
        (readGo dev (fuel - 1)
          { cd with buf := cd.buf.drop (min plen cd.buf.length),
                    trueOffset := cd.trueOffset + ((min plen cd.buf.length : Nat) : Int) }
          (plen - min plen cd.buf.length)).err,
        (readGo dev (fuel - 1)
          { cd with buf := cd.buf.drop (min plen cd.buf.length),
                    trueOffset := cd.trueOffset + ((min plen cd.buf.length : Nat) : Int) }
          (plen - min plen cd.buf.length)).trace⟩ := by
  cases fuel with
  | zero => omega
  | succ f => simp [readGo, hp, hb]

/-- The refill step of Read: with an empty buffer, bufferSectors is called
for len(p)/BytesPerSector + 1 sectors; when that succeeds Read recurses on
the unchanged request against the refilled state. -/
theorem readGo_refill_ok (dev : Device) (fuel : Nat) (cd : AudioCD) (plen : Nat)
    (hf : 1 ≤ fuel) (hp : plen ≠ 0) (hb : cd.buf.length = 0)
    (hok : (AudioCD.bufferSectors dev cd (plen / BytesPerSector + 1)).err = none) :
    readGo dev fuel cd plen =
      ⟨(readGo dev (fuel - 1) (AudioCD.bufferSectors dev cd (plen / BytesPerSector + 1)).st
          plen).st,
        (readGo dev (fuel - 1) (AudioCD.bufferSectors dev cd (plen / BytesPerSector + 1)).st
          plen).out,
        (readGo dev (fuel - 1) (AudioCD.bufferSectors dev cd (plen / BytesPerSector + 1)).st
          plen).err,
        (AudioCD.bufferSectors dev cd (plen / BytesPerSector + 1)).trace ++
          (readGo dev (fuel - 1) (AudioCD.bufferSectors dev cd (plen / BytesPerSector + 1)).st
            plen).trace⟩ := by
  cases fuel with
  | zero => omega
  | succ f =>
    simp only [readGo, hp, if_neg, hb, Nat.lt_irrefl, if_false, Nat.succ_sub_one]
    rw [hok]

/-- The refill step of Read when the device read fails: the error is
returned with no bytes served; bufferSectors has still grown the scratch
and advanced nothing. -/
theorem readGo_refill_err (dev : Device) (fuel : Nat) (cd : AudioCD) (plen : Nat)
    (ge : GoError) (hf : 1 ≤ fuel) (hp : plen ≠ 0) (hb : cd.buf.length = 0)
    (herr : (AudioCD.bufferSectors dev cd (plen / BytesPerSector + 1)).err = some ge) :
    readGo dev fuel cd plen =
      ⟨(AudioCD.bufferSectors dev cd (plen / BytesPerSector + 1)).st, [],
        some ge,
        (AudioCD.bufferSectors dev cd (plen / BytesPerSector + 1)).trace⟩ := by
  cases fuel with
  | zero => omega
  | succ f =>
    simp only [readGo, hp, if_neg, hb, Nat.lt_irrefl, if_false]
    rw [herr]

theorem readCallsAligned_append (a b : List DevCall) :
    readCallsAligned (a ++ b) = (readCallsAligned a && readCallsAligned b) := by
  induction a with
  | nil => simp [readCallsAligned]
  | cons hd tl ih => cases hd <;> simp [readCallsAligned, ih, Bool.and_assoc]

/-- Every device read that readSectors can issue requests a positive
sector count. -/
theorem readSectors_aligned (dev : Device) (cd : AudioCD) (plen : Nat) :
    readCallsAligned (AudioCD.readSectors dev cd plen).trace = true := by
  by_cases h1 : cd.IsOpen = false
  · simp [AudioCD.readSectors, h1, readCallsAligned]
  by_cases h2 : plen = 0
  · simp [AudioCD.readSectors, h1, h2, readCallsAligned]
  by_cases h3 : plen % BytesPerSector = 0
  · have hns : 1 ≤ plen / BytesPerSector := by
      have hB : BytesPerSector = 2352 := rfl
      rw [hB] at h3 ⊢
      omega
    have h4 : plen / BytesPerSector * BytesPerSector = plen :=
      Nat.div_mul_cancel (Nat.dvd_of_mod_eq_zero h3)
    have hopen : cd.IsOpen = true := by simpa using h1
    by_cases hr : dev.readRes (uint32ofInt (cd.trueOffset.tdiv (BytesPerSector : Int)))
        (plen / BytesPerSector) = 0 <;>
      simp [AudioCD.readSectors, hopen, h2, h3, readAudioSectors, h4, hr,
        readCallsAligned, hns]
  · simp [AudioCD.readSectors, h1, h2, h3, readCallsAligned]

/-- Every device read that bufferSectors can issue requests a positive
sector count. -/
theorem bufferSectors_aligned (dev : Device) (cd : AudioCD) (n : Nat) :
    readCallsAligned (AudioCD.bufferSectors dev cd n).trace = true := by
  simp only [AudioCD.bufferSectors]
  exact readSectors_aligned dev _ _

theorem lengthSectors_noReads (dev : Device) (cd : AudioCD) :
    readCallsAligned (AudioCD.LengthSectors dev cd).2 = true := by
  by_cases h : cd.IsOpen = false
  · simp [AudioCD.LengthSectors, h, readCallsAligned]
  · have hopen : cd.IsOpen = true := by simpa using h
    cases htoc : dev.tocRes with
    | error e =>
      simp [AudioCD.LengthSectors, AudioCD.TOC, AudioCD.TrackCount, toc, hopen, htoc,
        readCallsAligned]
    | ok l =>
      cases hl : l.getLast? <;>
        simp [AudioCD.LengthSectors, AudioCD.TOC, AudioCD.TrackCount, toc, hopen, htoc,
          hl, readCallsAligned]

/-- Every device read that a Seek (fast or slow path, any whence) can issue
requests a positive sector count. -/
theorem seekResolved_aligned (dev : Device) (cd : AudioCD) (newoffset : Int)
    (tr0 : List DevCall) (h0 : readCallsAligned tr0 = true) :
    readCallsAligned (seekResolved dev cd newoffset tr0).trace = true := by
  unfold seekResolved
  split
  · simpa using h0
  split
  · simpa using h0
  · dsimp only
    split <;>
      simp [readCallsAligned_append, h0, bufferSectors_aligned]

theorem seek_aligned (dev : Device) (cd : AudioCD) (offset whence : Int) :
    readCallsAligned (AudioCD.Seek dev cd offset whence).trace = true := by
  unfold AudioCD.Seek
  split
  · simp [readCallsAligned]
  split
  · exact seekResolved_aligned dev cd _ _ rfl
  split
  · split <;> rename_i heq
    · have := lengthSectors_noReads dev cd
      rw [heq] at this
      simpa using this
    · have := lengthSectors_noReads dev cd
      rw [heq] at this
      exact seekResolved_aligned dev cd _ _ (by simpa using this)
  · exact seekResolved_aligned dev cd _ _ rfl

/-- Every device read that a Read can issue requests a positive sector
count. -/
theorem readGo_aligned (dev : Device) (fuel : Nat) (cd : AudioCD) (plen : Nat) :
    readCallsAligned (readGo dev fuel cd plen).trace = true := by
  induction fuel generalizing cd plen with
  | zero => simp [readGo, readCallsAligned]
  | succ f ih =>
    simp only [readGo]
    by_cases h1 : plen = 0
    · simp [h1, readCallsAligned]
    by_cases h2 : 0 < cd.buf.length
    · simpa [h1, h2] using ih _ _
    · simp only [h1, if_neg, h2, if_false, not_false_eq_true]
      split
      · exact bufferSectors_aligned dev cd _
      · simp [readCallsAligned_append, bufferSectors_aligned, ih]

/-- Closed form of the Seek slow path (absolute whence) when the single
sector read succeeds: the device read happens at the sector of the OLD
bufferedOffset — not at the sector of the target — because
readAudioSectors takes its lsn from trueOffset, which the slow path set to
the stale bufferedOffset before calling bufferSectors. -/
theorem seek_slow_path (dev : Device) (cd : AudioCD) (newoffset : Int)
    (hopen : cd.IsOpen = true)
    (hne : newoffset ≠ cd.trueOffset)
    (hnofast : ¬(cd.trueOffset < newoffset ∧ newoffset < cd.bufferedOffset))
    (hdvd : BytesPerSector ∣ cd.sbuf.getD 0)
    (hread : dev.readRes (uint32ofInt (cd.bufferedOffset.tdiv (BytesPerSector : Int)))
        (grownLen cd 1 / BytesPerSector) = 0) :
    AudioCD.Seek dev cd newoffset 0 =
      ⟨{ cd with
            buf := (discBytes dev
              (uint32ofInt (cd.bufferedOffset.tdiv (BytesPerSector : Int)) * BytesPerSector)
              (grownLen cd 1)).drop (Int.tmod newoffset (BytesPerSector : Int)).toNat,
            sbuf := some (grownLen cd 1),
            bufferedOffset := cd.bufferedOffset + ((grownLen cd 1 : Nat) : Int),
            trueOffset := newoffset },
        newoffset, none,
        [DevCall.readAudio (uint32ofInt (cd.bufferedOffset.tdiv (BytesPerSector : Int)))
          (grownLen cd 1 / BytesPerSector)]⟩ := by
  have hb := bufferSectors_ok dev
    { cd with buf := [], trueOffset := cd.bufferedOffset } 1 hopen (Nat.le_refl 1) hdvd hread
  have hmod : newoffset - (newoffset - Int.tmod newoffset (BytesPerSector : Int)) =
      Int.tmod newoffset (BytesPerSector : Int) := by omega
  have h1 : startLSN { cd with buf := [], trueOffset := cd.bufferedOffset } =
      uint32ofInt (cd.bufferedOffset.tdiv (BytesPerSector : Int)) := rfl
  have h2 : grownLen { cd with buf := [], trueOffset := cd.bufferedOffset } 1 =
      grownLen cd 1 := rfl
  simp only [AudioCD.Seek, hopen, Bool.true_eq_false, if_false,
    show ¬((0 : Int) = 1) by decide, show ¬((0 : Int) = 2) by decide, if_neg,
    not_false_eq_true, seekResolved, hne, hnofast]
  rw [hb]
  dsimp only
  simp only [List.nil_append, hmod, h1, h2]

/-- Closed form of a Read that starts with an empty buffer, when the
scratch slice is not oversized and the single device read succeeds: one
read of len(p)/BytesPerSector + 1 whole sectors is issued, exactly len(p)
bytes are returned, and the remainder of the over-read stays buffered. -/
theorem read_empty_buf_ok (dev : Device) (cd : AudioCD) (plen : Nat)
    (hopen : cd.IsOpen = true) (hbuf : cd.buf = []) (hplen : 1 ≤ plen)
    (hsbuf : cd.sbuf.getD 0 ≤ (plen / BytesPerSector + 1) * BytesPerSector)
    (hdvd : BytesPerSector ∣ cd.sbuf.getD 0)
    (hread : dev.readRes (startLSN cd) (plen / BytesPerSector + 1) = 0) :
    AudioCD.Read dev cd plen =
      ⟨{ cd with
            sbuf := some ((plen / BytesPerSector + 1) * BytesPerSector),
            bufferedOffset := cd.bufferedOffset +
              (((plen / BytesPerSector + 1) * BytesPerSector : Nat) : Int),
            buf := (discBytes dev (startLSN cd * BytesPerSector)
              ((plen / BytesPerSector + 1) * BytesPerSector)).drop plen,
            trueOffset := cd.trueOffset + (plen : Int) },
        (discBytes dev (startLSN cd * BytesPerSector)
          ((plen / BytesPerSector + 1) * BytesPerSector)).take plen,
        none,
        [DevCall.readAudio (startLSN cd) (plen / BytesPerSector + 1)]⟩ := by
  have hB : BytesPerSector = 2352 := rfl
  have hg : grownLen cd (plen / BytesPerSector + 1) =
      (plen / BytesPerSector + 1) * BytesPerSector := by
    simp only [grownLen]
    omega
  have hcancel : (plen / BytesPerSector + 1) * BytesPerSector / BytesPerSector =
      plen / BytesPerSector + 1 := by
    rw [hB] at hsbuf ⊢
    omega
  have hb := bufferSectors_ok dev cd (plen / BytesPerSector + 1) hopen (Nat.le_add_left 1 _)
    hdvd (by rw [hg, hcancel]; exact hread)
  rw [hg, hcancel] at hb
  have hlt : plen < (plen / BytesPerSector + 1) * BytesPerSector := by
    rw [hB]
    omega
  have e1 : AudioCD.Read dev cd plen = readGo dev (2 * plen + 2) cd plen := rfl
  rw [e1, readGo_refill_ok dev (2 * plen + 2) cd plen (by omega) (by omega)
    (by simp [hbuf]) (by rw [hb]), hb]
  simp only
  rw [readGo_serve dev (2 * plen + 2 - 1)
    { cd with
        sbuf := some ((plen / BytesPerSector + 1) * BytesPerSector),
        bufferedOffset := cd.bufferedOffset +
          (((plen / BytesPerSector + 1) * BytesPerSector : Nat) : Int),
        buf := cd.buf ++ discBytes dev (startLSN cd * BytesPerSector)
          ((plen / BytesPerSector + 1) * BytesPerSector) }
    plen (by omega) (by omega)
    (by simp [hbuf, discBytes_length]; rw [hB] at hsbuf ⊢; omega)]
  have hmin : min plen ((cd.buf ++ discBytes dev (startLSN cd * BytesPerSector)
      ((plen / BytesPerSector + 1) * BytesPerSector)).length) = plen := by
    simp [hbuf, discBytes_length]
    omega
  simp only [hmin, Nat.sub_self]
  rw [readGo_zero dev (2 * plen + 2 - 1 - 1) _ (by omega)]
  simp [hbuf]

/- ------------------------------------------------------------------ -/
/- Claim theorems.                                                     -/
/- ------------------------------------------------------------------ -/

/-- Claim C1, evaluation of the code at the failing input: on a freshly
opened stream, Seek(2352, io.SeekStart) — whose target is byte 0 of disc
sector 1 — issues its single device read at lsn 0, not at the sector of the target, secoffset/BytesPerSector = 1, and the freshly buffered bytes are
the data of sector 0, while the cursor claims to sit at byte 2352. The slow
path never repositions the device to secoffset: readAudioSectors derives
its lsn from trueOffset, which Seek set to the stale bufferedOffset. -/
theorem claim_C1_bug_eval :
    (AudioCD.Seek okDevice freshOpen 2352 0).trace = [DevCall.readAudio 0 1] ∧
    (AudioCD.Seek okDevice freshOpen 2352 0).st.buf = discBytes okDevice 0 BytesPerSector ∧
    (AudioCD.Seek okDevice freshOpen 2352 0).st.trueOffset = 2352 ∧
    (AudioCD.Seek okDevice freshOpen 2352 0).st.bufferedOffset = 2352 ∧
    (AudioCD.Seek okDevice freshOpen 2352 0).err = none ∧
    ((2352 : Int) - Int.tmod 2352 (BytesPerSector : Int)) = 1 * (BytesPerSector : Int) := by
  have hs := seek_slow_path okDevice freshOpen 2352 rfl (by decide) (by decide) (by decide) rfl
  rw [hs]
  have hL : uint32ofInt (Int.tdiv freshOpen.bufferedOffset (BytesPerSector : Int)) = 0 := by
    decide
  have hG : grownLen freshOpen 1 = BytesPerSector := by decide
  have hT : (Int.tmod (2352 : Int) (BytesPerSector : Int)).toNat = 0 := by decide
  dsimp only
  rw [hL, hG, hT]
  refine ⟨by decide, ?_, rfl, by decide, rfl, by decide⟩
  simp

/-- Claim C2, evaluation of the code at the failing input: after
Seek(10000, io.SeekStart) on a freshly opened stream, the state invariant
is violated: bufferedOffset = 2352 < trueOffset = 10000, and
bufferedOffset - trueOffset does not equal the 1760 unread buffered
bytes. -/
theorem claim_C2_bug_eval :
    (AudioCD.Seek okDevice freshOpen 10000 0).st.bufferedOffset <
      (AudioCD.Seek okDevice freshOpen 10000 0).st.trueOffset ∧
    (AudioCD.Seek okDevice freshOpen 10000 0).st.bufferedOffset = 2352 ∧
    (AudioCD.Seek okDevice freshOpen 10000 0).st.trueOffset = 10000 ∧
    (AudioCD.Seek okDevice freshOpen 10000 0).st.buf.length = 1760 ∧
    (AudioCD.Seek okDevice freshOpen 10000 0).err = none := by
  have hs := seek_slow_path okDevice freshOpen 10000 rfl (by decide) (by decide) (by decide) rfl
  rw [hs]
  dsimp only
  refine ⟨by decide, by decide, rfl, ?_, rfl⟩
  rw [List.length_drop, discBytes_length]
  decide

/-- Claim C3, counterexample: a Read of exactly one sector (2352 bytes) on
a freshly opened stream issues a device read of 2 sectors, although the
minimum whole-sector count covering the request is 1 — the code reads
len(p)/BytesPerSector + 1 sectors even when len(p) is an exact multiple. -/
theorem claim_C3_counterexample :
    readAudioSectorCount (AudioCD.Read okDevice freshOpen BytesPerSector).trace = 2 ∧
    minSectorsCovering BytesPerSector = 1 := by
  have hr := read_empty_buf_ok okDevice freshOpen BytesPerSector rfl rfl (by decide)
    (by decide) (by decide) rfl
  rw [hr]
  exact ⟨by decide, by decide⟩

/-- Claim C4, counterexample: bufferSectors(1) on a stream whose scratch
slice is left over from a two-sector call issues a device read of 2
sectors (4704 bytes), not the claimed exact 1 × BytesPerSector, because
readSectors is passed the whole scratch slice. -/
theorem claim_C4_counterexample :
    (AudioCD.bufferSectors okDevice staleScratch 1).trace = [DevCall.readAudio 0 2] ∧
    readAudioSectorCount (AudioCD.bufferSectors okDevice staleScratch 1).trace ≠ 1 := by
  have hb := bufferSectors_ok okDevice staleScratch 1 rfl (by decide) (by decide) rfl
  rw [hb]
  exact ⟨by decide, by decide⟩

/-- Claim C3 as amended: a Read(p) on an open stream with an empty buffer
and a scratch slice no larger than needed issues exactly one device read of
len(p)/BytesPerSector + 1 whole sectors (one more than the full sectors of the request — minimal only when len(p) is not an exact sector multiple),
returns precisely len(p) bytes when the device read succeeds, and leaves
the (len(p)/BytesPerSector + 1)*BytesPerSector - len(p) over-read bytes
buffered for the next call. -/
theorem claim_C3_amended (dev : Device) (cd : AudioCD) (plen : Nat)
    (hopen : cd.IsOpen = true) (hbuf : cd.buf = []) (hplen : 1 ≤ plen)
    (hsbuf : cd.sbuf.getD 0 ≤ (plen / BytesPerSector + 1) * BytesPerSector)
    (hdvd : BytesPerSector ∣ cd.sbuf.getD 0)
    (hread : dev.readRes (startLSN cd) (plen / BytesPerSector + 1) = 0) :
    (AudioCD.Read dev cd plen).trace =
      [DevCall.readAudio (startLSN cd) (plen / BytesPerSector + 1)] ∧
    (AudioCD.Read dev cd plen).out.length = plen ∧
    (AudioCD.Read dev cd plen).err = none ∧
    (AudioCD.Read dev cd plen).st.buf.length =
      (plen / BytesPerSector + 1) * BytesPerSector - plen := by
  have hr := read_empty_buf_ok dev cd plen hopen hbuf hplen hsbuf hdvd hread
  rw [hr]
  dsimp only
  have hB : BytesPerSector = 2352 := rfl
  refine ⟨rfl, ?_, rfl, ?_⟩
  · rw [List.length_take, discBytes_length]
    rw [hB]
    omega
  · rw [List.length_drop, discBytes_length]

/-- Witness for C3 at a concrete input: a 100-byte Read on a fresh open
stream issues one 1-sector device read, returns 100 bytes, and leaves
2252 bytes buffered. -/
theorem claim_C3_witness :
    (AudioCD.Read okDevice freshOpen 100).trace = [DevCall.readAudio 0 1] ∧
    (AudioCD.Read okDevice freshOpen 100).out.length = 100 ∧
    (AudioCD.Read okDevice freshOpen 100).err = none ∧
    (AudioCD.Read okDevice freshOpen 100).st.buf.length = 2252 :=
  claim_C3_amended okDevice freshOpen 100 rfl rfl (by decide) (by decide) (by decide) rfl

/-- Claim C4 as amended: bufferSectors(n) on an open stream requests
exactly max(n*BytesPerSector, len(scratch)) bytes from the device in one
whole-sector read — n*BytesPerSector only when the reusable scratch slice
is not already larger — advances bufferedOffset by the byte count actually
returned, appends those bytes to the pending buffer, and never shrinks the
scratch. -/
theorem claim_C4_amended (dev : Device) (cd : AudioCD) (nsectors : Nat)
    (hopen : cd.IsOpen = true) (hn : 1 ≤ nsectors)
    (hdvd : BytesPerSector ∣ cd.sbuf.getD 0)
    (hread : dev.readRes (startLSN cd) (grownLen cd nsectors / BytesPerSector) = 0) :
    AudioCD.bufferSectors dev cd nsectors =
      ⟨{ cd with sbuf := some (grownLen cd nsectors),
                 bufferedOffset := cd.bufferedOffset + ((grownLen cd nsectors : Nat) : Int),
                 buf := cd.buf ++
                   discBytes dev (startLSN cd * BytesPerSector) (grownLen cd nsectors) },
        none,
        [DevCall.readAudio (startLSN cd) (grownLen cd nsectors / BytesPerSector)]⟩ ∧
    cd.sbuf.getD 0 ≤ grownLen cd nsectors ∧
    nsectors * BytesPerSector ≤ grownLen cd nsectors :=
  ⟨bufferSectors_ok dev cd nsectors hopen hn hdvd hread,
    Nat.le_max_right _ _, Nat.le_max_left _ _⟩

/-- Witness for C4 at a concrete input: bufferSectors(2) on a fresh open
stream with nil scratch allocates a 2-sector scratch and reads it whole. -/
theorem claim_C4_witness :
    AudioCD.bufferSectors okDevice freshOpen 2 =
      ⟨{ freshOpen with
          sbuf := some (grownLen freshOpen 2)
          bufferedOffset := freshOpen.bufferedOffset + ((grownLen freshOpen 2 : Nat) : Int)
          buf := freshOpen.buf ++
            discBytes okDevice (startLSN freshOpen * BytesPerSector) (grownLen freshOpen 2) },
        none,
        [DevCall.readAudio (startLSN freshOpen) (grownLen freshOpen 2 / BytesPerSector)]⟩ ∧
    freshOpen.sbuf.getD 0 ≤ grownLen freshOpen 2 ∧
    2 * BytesPerSector ≤ grownLen freshOpen 2 :=
  claim_C4_amended okDevice freshOpen 2 rfl (by decide) (by decide) rfl

/-- Claim C7, counterexample: a zero-length Read on a closed (never
opened) stream returns (0, nil) — success, not a not-open failure — so
not every read on a closed stream fails. -/
theorem claim_C7_counterexample :
    AudioCD.Read okDevice zeroCD 0 = ⟨zeroCD, [], none, []⟩ := by
  decide

/-- Claim C7 as amended: on a stream that is not open (its buffer empty,
as both the zero value and the post-Close state are), Seek, TOC,
LengthSectors, SetSpeed, Model, TrackCount, and any Read of at least one
byte fail immediately with their not-open condition (os.ErrClosed,
"" for Model, -1 for TrackCount) and perform no device call; the only
exception is a zero-length Read, which returns (0, nil). -/
theorem claim_C7_amended (dev : Device) (cd : AudioCD) (offset whence x : Int)
    (plen : Nat) (hclosed : cd.IsOpen = false) (hbuf : cd.buf = []) (hplen : 1 ≤ plen) :
    AudioCD.Seek dev cd offset whence = ⟨cd, cd.trueOffset, some GoError.errClosed, []⟩ ∧
    (AudioCD.Read dev cd plen).err = some GoError.errClosed ∧
    (AudioCD.Read dev cd plen).out = [] ∧
    (AudioCD.Read dev cd plen).trace = [] ∧
    AudioCD.TOC dev cd = (Except.error GoError.errClosed, []) ∧
    AudioCD.LengthSectors dev cd = (Except.error GoError.errClosed, []) ∧
    AudioCD.SetSpeed dev cd x = (some GoError.errClosed, []) ∧
    AudioCD.Model dev cd = ("", []) ∧
    AudioCD.TrackCount dev cd = (-1, []) := by
  have hc : cd.cdio = false := hclosed
  have hbs : AudioCD.bufferSectors dev cd (plen / BytesPerSector + 1) =
      ⟨{ cd with sbuf := some (grownLen cd (plen / BytesPerSector + 1)) }, some GoError.errClosed,
        []⟩ := by
    have hslen :
        (match cd.sbuf with
          | none => (plen / BytesPerSector + 1) * BytesPerSector
          | some l => if l < (plen / BytesPerSector + 1) * BytesPerSector then
              (plen / BytesPerSector + 1) * BytesPerSector else l) =
        grownLen cd (plen / BytesPerSector + 1) := by
      cases hsb : cd.sbuf with
      | none => simp [grownLen, hsb]
      | some l =>
        simp only [grownLen, hsb, Option.getD]
        split <;> omega
    simp only [AudioCD.bufferSectors, hslen, AudioCD.readSectors, AudioCD.IsOpen, hc]
    simp
  have e1 : AudioCD.Read dev cd plen = readGo dev (2 * plen + 2) cd plen := rfl
  have hrd : AudioCD.Read dev cd plen =
      ⟨{ cd with sbuf := some (grownLen cd (plen / BytesPerSector + 1)) }, [],
        some GoError.errClosed, []⟩ := by
    rw [e1, readGo_refill_err dev (2 * plen + 2) cd plen GoError.errClosed (by omega)
      (by omega) (by simp [hbuf]) (by rw [hbs]), hbs]
  refine ⟨?_, ?_, ?_, ?_, ?_, ?_, ?_, ?_, ?_⟩
  · simp [AudioCD.Seek, AudioCD.IsOpen, hc]
  · rw [hrd]
  · rw [hrd]
  · rw [hrd]
  · simp [AudioCD.TOC, AudioCD.IsOpen, hc]
  · simp [AudioCD.LengthSectors, AudioCD.IsOpen, hc]
  · simp [AudioCD.SetSpeed, AudioCD.IsOpen, hc]
  · simp [AudioCD.Model, AudioCD.IsOpen, hc]
  · simp [AudioCD.TrackCount, AudioCD.IsOpen, hc]

/-- Witness for C7 at the zero-valued (never opened) stream. -/
theorem claim_C7_witness :
    AudioCD.Seek okDevice zeroCD 5 0 = ⟨zeroCD, 0, some GoError.errClosed, []⟩ ∧
    (AudioCD.Read okDevice zeroCD 1).err = some GoError.errClosed ∧
    AudioCD.TOC okDevice zeroCD = (Except.error GoError.errClosed, []) ∧
    AudioCD.Model okDevice zeroCD = ("", []) := by
  obtain ⟨h1, h2, h3, h4, h5, h6, h7, h8, h9⟩ :=
    claim_C7_amended okDevice zeroCD 5 0 7 1 rfl rfl (by decide)
  exact ⟨h1, h2, h5, h8⟩

/-- Claim C8: every cdio_read_audio_sectors call reachable through Seek,
Read or bufferSectors requests a positive whole-sector byte count, and a
direct readSectors request on an open stream that is not sized in whole
sectors is rejected with the alignment error before any device call. -/
theorem claim_C8_alignment (dev : Device) (cd : AudioCD) (offset whence : Int)
    (plen n : Nat) :
    (cd.IsOpen = true → plen % BytesPerSector ≠ 0 →
      AudioCD.readSectors dev cd plen = ⟨0, none, some GoError.errNotWholeSectors, []⟩) ∧
    readCallsAligned (AudioCD.Seek dev cd offset whence).trace = true ∧
    readCallsAligned (AudioCD.Read dev cd plen).trace = true ∧
    readCallsAligned (AudioCD.bufferSectors dev cd n).trace = true := by
  refine ⟨fun ho hm => ?_, seek_aligned dev cd offset whence,
    readGo_aligned dev (2 * plen + 2) cd plen, bufferSectors_aligned dev cd n⟩
  have hp : plen ≠ 0 := by
    intro h
    rw [h] at hm
    exact hm (Nat.zero_mod _)
  have hc : cd.cdio = true := ho
  simp [AudioCD.readSectors, AudioCD.IsOpen, hc, hp, hm]

/-- Witness for C8 at concrete inputs: a 100-byte readSectors request is
rejected as misaligned with no device call, and concrete Seek, Read and
bufferSectors traces are aligned. -/
theorem claim_C8_witness :
    AudioCD.readSectors okDevice freshOpen 100 =
      ⟨0, none, some GoError.errNotWholeSectors, []⟩ ∧
    readCallsAligned (AudioCD.Seek okDevice freshOpen 2352 0).trace = true ∧
    readCallsAligned (AudioCD.Read okDevice freshOpen 100).trace = true ∧
    readCallsAligned (AudioCD.bufferSectors okDevice freshOpen 1).trace = true := by
  obtain ⟨h1, h2, h3, h4⟩ := claim_C8_alignment okDevice freshOpen 2352 0 100 1
  exact ⟨h1 rfl (by decide), h2, h3, h4⟩

/-- Claim C5, counterexample: when the eject itself fails, EjectMedia
returns the driver error WITHOUT performing Close — the stream is left
open and its buffered bytes are retained, contradicting the claim that
Close happens unconditionally. -/
theorem claim_C5_counterexample :
    (AudioCD.EjectMedia badEjectDevice bufState).st.IsOpen = true ∧
    (AudioCD.EjectMedia badEjectDevice bufState).st.buf = [5, 6, 7] ∧
    (AudioCD.EjectMedia badEjectDevice bufState).err = some (GoError.driverError (-4)) := by
  decide

/-- Claim C5 as amended: EjectMedia signals the eject; on a zero return
code the binding clears the handle and Close runs, leaving the stream
closed with the buffer discarded and nil error; on a nonzero code the
driver error is returned immediately and the state is untouched (still
open, buffer kept) — Close is NOT performed. -/
theorem claim_C5_amended (dev : Device) (cd : AudioCD) :
    AudioCD.EjectMedia dev cd =
      if dev.ejectRes = 0 then
        ⟨{ cd with cdio := false, buf := [] }, none, [DevCall.eject]⟩
      else ⟨cd, some (GoError.driverError dev.ejectRes), [DevCall.eject]⟩ := by
  by_cases h : dev.ejectRes = 0 <;>
    simp [AudioCD.EjectMedia, ejectMedia, AudioCD.Close, AudioCD.IsOpen, h]

/-- Claim C6, counterexample: Close does not reset the offsets — closing a
stream whose cursor sits at byte 2352 leaves both trueOffset and
bufferedOffset at 2352 (they are only reset by the next successful
Open). -/
theorem claim_C6_counterexample :
    (AudioCD.Close usedState).st.trueOffset = 2352 ∧
    (AudioCD.Close usedState).st.bufferedOffset = 2352 ∧
    (AudioCD.Close usedState).st.trueOffset ≠ 0 := by
  decide

/-- Claim C6 as amended: Close releases the device session iff one is
held, discards all buffered data, clears the handle and returns nil; the
offsets are left unchanged (not reset); and closing the already-closed
result again is a no-op success with no device call. -/
theorem claim_C6_amended (cd : AudioCD) :
    (AudioCD.Close cd).st.IsOpen = false ∧
    (AudioCD.Close cd).st.buf = [] ∧
    (AudioCD.Close cd).st.trueOffset = cd.trueOffset ∧
    (AudioCD.Close cd).st.bufferedOffset = cd.bufferedOffset ∧
    (AudioCD.Close cd).err = none ∧
    (AudioCD.Close cd).trace = (if cd.IsOpen = true then [DevCall.destroy] else []) ∧
    AudioCD.Close (AudioCD.Close cd).st = ⟨(AudioCD.Close cd).st, none, []⟩ := by
  simp [AudioCD.Close, AudioCD.IsOpen]

/-- Claim C9: a Seek to the current cursor position from the start is a
no-op — same offset returned, no error, state untouched, and no device
call is made. -/
theorem claim_C9_seek_idempotent (dev : Device) (cd : AudioCD) (h : cd.IsOpen = true) :
    AudioCD.Seek dev cd cd.trueOffset 0 = ⟨cd, cd.trueOffset, none, []⟩ := by
  simp [AudioCD.Seek, h, seekResolved]

/-- Witness for C9 at a concrete open stream. -/
theorem claim_C9_witness :
    AudioCD.Seek okDevice freshOpen 0 0 = ⟨freshOpen, 0, none, []⟩ :=
  claim_C9_seek_idempotent okDevice freshOpen rfl

/-- Claim C10: when openDrive succeeds but the subsequent SetSpeed fails,
Open returns the driver error early — before the buffer/offset resets —
with the session still held: the resulting state is the input state plus
the acquired handle, so IsOpen is true and Close is still needed. -/
theorem claim_C10_open_speed_failure (dev : Device) (cd : AudioCD)
    (hclosed : cd.IsOpen = false) (hok : dev.openOk = true)
    (hfail : dev.speedRes 65535 ≠ 0) :
    AudioCD.Open dev cd =
      ⟨{ cd with cdio := true }, some (GoError.driverError (dev.speedRes 65535)),
        [DevCall.openDrive, DevCall.setSpeed 65535]⟩ ∧
    AudioCD.IsOpen { cd with cdio := true } = true := by
  have hc : cd.cdio = false := hclosed
  constructor
  · simp [AudioCD.Open, openDrive, AudioCD.SetSpeed, AudioCD.IsOpen, hc, hok, hfail]
  · rfl

/-- Witness for C10: a device that opens but cannot set speed leaves the
zero-valued stream open with the error surfaced. -/
theorem claim_C10_witness :
    AudioCD.Open noSpeedDevice zeroCD =
      ⟨⟨[], none, 0, 0, true⟩, some (GoError.driverError (-5)),
        [DevCall.openDrive, DevCall.setSpeed 65535]⟩ ∧
    AudioCD.IsOpen ⟨[], none, 0, 0, true⟩ = true :=
  claim_C10_open_speed_failure noSpeedDevice zeroCD rfl rfl (by decide)

end AudioCDSpec
